import Mathlib

/-!
Shallow embedding of the client-side image-optimization pipeline of the
morisono/evilpo repository: `docs/js/image-optimization.js`
(`ImageOptimizationSystem`, `ImageOptimizationABTesting`) and the
service-worker portion of `src/js/performance-monitor.js`
(`ImageOptimizationSW`).  JS numbers are modelled as `ℚ`/`ℤ`/`ℕ`;
`Math.round` as `⌊x + 1/2⌋` (its JS semantics, half toward +∞); the 32-bit
truncation performed by the bitwise operators is written out explicitly.
-/

namespace Evilpo

/-- JS `Math.round`: round half toward positive infinity. -/
def jsRound (q : ℚ) : ℤ := ⌊q + 1/2⌋

/-- The `effectiveType` network classes the source compares against;
`other` stands for any other string (it always takes the default branch,
exactly as an unmatched string does in the source). -/
inductive EffType where
  | slow2g
  | twoG
  | threeG
  | fourG
  | other
deriving DecidableEq, Repr

/-- Image formats produced by format selection. -/
inductive Format where
  | avif
  | webp
  | jpg
deriving DecidableEq, Repr

/-- The `formatSupport` booleans (`detectFormatSupport`). -/
structure FormatSupport where
  avif : Bool
  webp : Bool
  jpg : Bool
deriving DecidableEq, Repr

/-- `deviceCapabilities.connection` after the defaulting reads. -/
structure Connection where
  effectiveType : EffType
  downlink : ℚ
  rtt : ℚ
  saveData : Bool
deriving DecidableEq, Repr

/-- The `navigator.connection` object as read by `detectDeviceCapabilities`
(image-optimization.js:170): every field may be absent.  A JS-falsy field
value (empty string, 0, false) takes the same default branch as an absent
one under `||`, so `none` stands for both. -/
structure RawConnection where
  effectiveType : Option EffType
  downlink : Option ℚ
  rtt : Option ℚ
  saveData : Option Bool
deriving DecidableEq

/-- The connection part of `detectDeviceCapabilities`
(image-optimization.js:176-181): `connection?.effectiveType || '4g'`,
`downlink || 10`, `rtt || 100`, `saveData || false`.  A missing
`navigator.connection` yields all defaults. -/
def detectConnection (conn : Option RawConnection) : Connection :=
  match conn with
  | none =>
    { effectiveType := EffType.fourG, downlink := 10, rtt := 100, saveData := false }
  | some c =>
    { effectiveType := c.effectiveType.getD EffType.fourG
      downlink := c.downlink.getD 10
      rtt := c.rtt.getD 100
      saveData := c.saveData.getD false }

/-- `detectFormatSupport` (image-optimization.js:121-146) as a function of
the two decode-probe outcomes (`createTestImage` resolves a boolean and
never rejects): `jpg` is hard-coded `true`, a failed probe leaves the
corresponding flag `false`. -/
def detectFormatSupport (avifProbe webpProbe : Bool) : FormatSupport :=
  { avif := avifProbe, webp := webpProbe, jpg := true }

/-- `getFormatSupport` of the service worker
(performance-monitor.js:1312-1336): use the first client's reported
support; when no client is available, resolve the hard-coded fallback
`{ avif: false, webp: true, jpg: true }`. -/
def getFormatSupport (clientReport : Option FormatSupport) : FormatSupport :=
  match clientReport with
  | some fs => fs
  | none => { avif := false, webp := true, jpg := true }

/-- `selectOptimalFormat` (image-optimization.js:444-469).  `variantAssign`
models `this.abTestVariant?.['format-preference']` (`none` when the A/B map
is null or the key is absent; `|| 'smart-detection'` also maps the falsy
empty string to the default). -/
def selectOptimalFormat (fs : FormatSupport) (variantAssign : Option String)
    (conn : Connection) : Format :=
  let variant := match variantAssign with
    | none => "smart-detection"
    | some s => if s = "" then "smart-detection" else s
  if variant = "avif-first" then
    if fs.avif then Format.avif else if fs.webp then Format.webp else Format.jpg
  else if variant = "webp-first" then
    if fs.webp then Format.webp else Format.jpg
  else
    if conn.saveData then Format.jpg
    else if fs.avif = true ∧ conn.effectiveType ≠ EffType.slow2g then Format.avif
    else if fs.webp then Format.webp
    else Format.jpg

/-- `calculateOptimalQuality` (image-optimization.js:507-539).
`requestedQuality || 80` also treats the falsy requested quality 0 as
absent; `variantAssign` models
`this.abTestVariant?.['compression-strategy'] || 'balanced'`. -/
def calculateOptimalQuality (requestedQuality : Option ℚ)
    (variantAssign : Option String) (conn : Connection) : ℤ :=
  let variant := match variantAssign with
    | none => "balanced"
    | some s => if s = "" then "balanced" else s
  let baseQuality : ℚ := match requestedQuality with
    | none => 80
    | some q => if q = 0 then 80 else q
  let afterVariant : ℚ :=
    if variant = "aggressive" then baseQuality * 0.8
    else if variant = "quality-focused" then baseQuality * 1.1
    else baseQuality
  let afterConnection : ℚ :=
    if conn.saveData then afterVariant * 0.6
    else if conn.effectiveType = EffType.slow2g then afterVariant * 0.7
    else if conn.effectiveType = EffType.twoG then afterVariant * 0.8
    else if conn.effectiveType = EffType.threeG then afterVariant * 0.9
    else afterVariant
  max 30 (min 95 (jsRound afterConnection))

/-- The spec's `selectQuality` (spec §4.2), stated from the spec's words for
comparison with `calculateOptimalQuality`: start from the requested quality
(default 80 when absent), apply the variant multiplier
(aggressive=0.8, quality-focused=1.1, balanced=1.0), then the network
multiplier (slow-2g=0.7, 2g=0.8, 3g=0.9, else 1.0; saveData overrides to
0.6), round, clamp to [30,95]. -/
def selectQualitySpec (requestedQuality : Option ℚ)
    (variantAssign : Option String) (conn : Connection) : ℤ :=
  let variant := variantAssign.getD "balanced"
  let base : ℚ := requestedQuality.getD 80
  let variantMultiplier : ℚ :=
    if variant = "aggressive" then 0.8
    else if variant = "quality-focused" then 1.1
    else 1
  let networkMultiplier : ℚ :=
    if conn.saveData then 0.6
    else match conn.effectiveType with
      | EffType.slow2g => 0.7
      | EffType.twoG => 0.8
      | EffType.threeG => 0.9
      | _ => 1
  max 30 (min 95 (jsRound (base * variantMultiplier * networkMultiplier)))

/-- A requested quality as `requestedQuality || 80` classifies it: the
JS-falsy 0 is treated exactly like an absent argument. -/
def normalizedQuality (requestedQuality : Option ℚ) : Option ℚ :=
  match requestedQuality with
  | none => none
  | some q => if q = 0 then none else some q

/-- The CDN request descriptor that `generateOptimizedUrl`
(image-optimization.js:544-560) encodes into the proxy URL query. -/
structure OptimizedUrl where
  src : String
  w : ℤ
  h : ℤ
  q : ℤ
  f : Format
deriving DecidableEq, Repr

/-- `generateOptimizedUrl`, modelled as the request descriptor rather than
the URL string it serializes. -/
def generateOptimizedUrl (src : String) (f : Format) (width height : ℤ)
    (quality : ℤ) : OptimizedUrl :=
  { src := src, w := width, h := height, q := quality, f := f }

/-- `generateSrcSet` (image-optimization.js:565-582): one
`(url, scaledWidth)` entry per multiplier in `[0.5, 1, 1.5, 2]`. -/
def generateSrcSet (src : String) (width height : ℤ) (f : Format)
    (quality : ℤ) : List (OptimizedUrl × ℤ) :=
  [(0.5 : ℚ), 1, 1.5, 2].map fun multiplier =>
    let scaledWidth := jsRound ((width : ℚ) * multiplier)
    let scaledHeight := jsRound ((height : ℚ) * multiplier)
    (generateOptimizedUrl src f scaledWidth scaledHeight quality, scaledWidth)

/-! ### Service-worker cache (`ImageOptimizationSW`, performance-monitor.js) -/

/-- `CACHE_EXPIRY.images` (performance-monitor.js:1005): 7 days in ms. -/
def cacheExpiryImages : ℕ := 7 * 24 * 60 * 60 * 1000

/-- `CACHE_EXPIRY.dynamic` (performance-monitor.js:1008): 2 hours in ms. -/
def cacheExpiryDynamic : ℕ := 2 * 60 * 60 * 1000

/-- One entry of a cache partition as `manageCacheSize` reads it back:
`size = parseInt(content-length) || 1024` and
`cachedAt = parseInt(sw-cached-at) || 0`, already resolved to numbers. -/
structure CacheEntry where
  request : String
  size : ℕ
  cachedAt : ℕ
deriving DecidableEq, Repr

/-- Total estimated size of a partition's entries
(performance-monitor.js:1523). -/
def sumSize (l : List CacheEntry) : ℕ := (l.map CacheEntry.size).sum

/-- Stable insertion step modelling
`sort((a, b) => a.cachedAt - b.cachedAt)` (performance-monitor.js:1521). -/
def insertByCachedAt (e : CacheEntry) : List CacheEntry → List CacheEntry
  | [] => [e]
  | x :: xs =>
    if e.cachedAt ≤ x.cachedAt then e :: x :: xs else x :: insertByCachedAt e xs

/-- The ascending-`cachedAt` sort of `manageCacheSize` ("oldest first"). -/
def sortByCachedAt : List CacheEntry → List CacheEntry
  | [] => []
  | x :: xs => insertByCachedAt x (sortByCachedAt xs)

/-- The `while (currentSize > maxSize && responseData.length > 0)` loop of
`manageCacheSize` (performance-monitor.js:1526-1530).  The mutable
`currentSize` always equals the total size of the entries still in
`responseData`, so the loop is phrased on that total. -/
def evictOldest : List CacheEntry → ℕ → List CacheEntry
  | [], _ => []
  | e :: rest, maxSize =>
    if maxSize < sumSize (e :: rest) then evictOldest rest maxSize else e :: rest

/-- `manageCacheSize` (performance-monitor.js:1501-1531): sort the partition
ascending by `cachedAt`, then delete oldest entries while the total exceeds
`maxSize`.  Returns the retained entries. -/
def manageCacheSize (entries : List CacheEntry) (maxSize : ℕ) : List CacheEntry :=
  evictOldest (sortByCachedAt entries) maxSize

/-- The fields of a response that the caching layer reads or writes. -/
structure SWResponse where
  ok : Bool
  swCachedAt : Option ℕ
  contentLength : Option ℕ
deriving DecidableEq, Repr

/-- `isExpired` (performance-monitor.js:1536-1551).  `swCachedAt` is the
parsed `sw-cached-at` header: `none` when the header is missing (`parseInt`
then yields `NaN`, and `if (!cachedAt) return false` fires); a parsed 0 is
falsy and takes the same early return.  `isImage` selects the
content-type-dependent `maxAge`. -/
def isExpired (swCachedAt : Option ℕ) (now : ℕ) (isImage : Bool) : Bool :=
  match swCachedAt with
  | none => false
  | some cachedAt =>
    if cachedAt = 0 then false
    else
      let age : ℤ := (now : ℤ) - (cachedAt : ℤ)
      let maxAge : ℤ :=
        if isImage then (cacheExpiryImages : ℤ) else (cacheExpiryDynamic : ℤ)
      decide (maxAge < age)

/-- `cacheResponse` (performance-monitor.js:1474-1496): a missing or non-ok
response is not stored (`none`); otherwise the stored copy carries the
stamped header `sw-cached-at = Date.now()`. -/
def cacheResponse (response : SWResponse) (now : ℕ) : Option SWResponse :=
  if response.ok then some { response with swCachedAt := some now } else none

/-- The cache-serving decision of `handleImageRequest`
(performance-monitor.js:1182 and 1191): a cached response is served iff it
is present and `!this.isExpired(cachedResponse)`. -/
def servesCachedResponse (cached : Option SWResponse) (now : ℕ)
    (isImage : Bool) : Bool :=
  match cached with
  | none => false
  | some r => ! isExpired r.swCachedAt now isImage

/-! ### A/B bucketing (`ImageOptimizationSystem.getABTestVariant` and
`ImageOptimizationABTesting`) -/

/-- The shared cumulative-weight walk: `cumulative += weight; if (random <=
cumulative) return id` — the loop body of both `getABTestVariant`
(image-optimization.js:386-392, over parallel `variants`/`allocation`
arrays, zipped here) and `assignToVariant`
(image-optimization.js:1229-1235, over `Object.entries(experiment.variants)`
in insertion order). -/
def pickVariantLoop (random : ℚ) (cumulative : ℚ) :
    List (String × ℚ) → Option String
  | [] => none
  | (vid, wt) :: rest =>
    if random ≤ cumulative + wt then some vid
    else pickVariantLoop random (cumulative + wt) rest

/-- One experiment of `ImageOptimizationSystem.config.abTesting`: parallel
`variants` and `allocation` arrays. -/
structure ABExperiment where
  variants : List String
  allocation : List ℚ
deriving DecidableEq, Repr

/-- `config.abTesting.experiments` of `ImageOptimizationSystem`
(image-optimization.js:63-73). -/
def abTestingExperiments : List (String × ABExperiment) :=
  [("format-preference",
    { variants := ["avif-first", "webp-first", "smart-detection"],
      allocation := [0.4, 0.4, 0.2] }),
   ("compression-strategy",
    { variants := ["aggressive", "balanced", "quality-focused"],
      allocation := [0.3, 0.4, 0.3] })]

/-- `getABTestVariant` (image-optimization.js:377-396): returns `none` when
A/B testing is disabled; otherwise, for each experiment, a fresh
`Math.random()` draw (`randomDraw`, one independent draw per experiment and
per call — no user identifier is consulted).  An experiment gets no entry
when its draw exceeds the total allocation mass. -/
def getABTestVariant (enabled : Bool)
    (experiments : List (String × ABExperiment)) (randomDraw : String → ℚ) :
    Option (List (String × String)) :=
  if enabled then
    some (experiments.filterMap fun p =>
      (pickVariantLoop (randomDraw p.1) 0 (p.2.variants.zip p.2.allocation)).map
        fun v => (p.1, v))
  else none

/-- `config.experiments` of `ImageOptimizationABTesting`
(image-optimization.js:916-1083): ordered `(variantId, weight)` pairs per
experiment. -/
def abExperiments : List (String × List (String × ℚ)) :=
  [("format-preference",
    [("avif-first", 0.3), ("webp-first", 0.4), ("smart-detection", 0.3)]),
   ("compression-strategy",
    [("aggressive", 0.3), ("balanced", 0.4), ("quality-focused", 0.3)]),
   ("lazy-loading-strategy",
    [("intersection-observer", 0.4), ("scroll-based", 0.2), ("predictive", 0.4)]),
   ("cache-strategy",
    [("aggressive-cache", 0.3), ("balanced-cache", 0.4), ("minimal-cache", 0.3)])]

/-- `this.config.experiments[experimentId]` (image-optimization.js:1222). -/
def lookupExperiment : List (String × List (String × ℚ)) → String →
    Option (List (String × ℚ))
  | [], _ => none
  | (k, v) :: rest, eid => if k = eid then some v else lookupExperiment rest eid

/-- Truncation to a signed 32-bit integer (the JS `hash & hash` and the
wrap-around of `<<` on `Number`). -/
def toInt32 (n : ℤ) : ℤ := (n + 2 ^ 31) % 2 ^ 32 - 2 ^ 31

/-- `hashString` (image-optimization.js:1244-1252) on the string's char
codes: `hash = ((hash << 5) - hash) + char` (the shift operates on the
32-bit truncation of `hash`, which the trailing `hash = hash & hash` keeps
re-establishing), then `Math.abs`. -/
def hashString (chars : List ℕ) : ℕ :=
  (chars.foldl (fun hash char => toInt32 (toInt32 (hash * 32) - hash + char)) 0).natAbs

/-- UTF-16 char codes of an identifier string (all identifiers involved are
ASCII, where `charCodeAt` and the code point agree). -/
def strChars (s : String) : List ℕ := s.data.map Char.toNat

/-- The bucket value of `assignToVariant` (image-optimization.js:1226-1227):
`(hashString(userId + experimentId) % 10000) / 10000`. -/
def bucketValue (userId : List ℕ) (experimentId : String) : ℚ :=
  ((hashString (userId ++ strChars experimentId) % 10000 : ℕ) : ℚ) / 10000

/-- `assignToVariant` (image-optimization.js:1221-1239): deterministic
hash-based bucketing, with `Object.keys(experiment.variants)[0]` as the
fallback when the bucket value exceeds every cumulative weight. -/
def assignToVariant (experiments : List (String × List (String × ℚ)))
    (userId : List ℕ) (experimentId : String) : Option String :=
  match lookupExperiment experiments experimentId with
  | none => none
  | some variants =>
    match pickVariantLoop (bucketValue userId experimentId) 0 variants with
    | some v => some v
    | none => (variants.head?).map Prod.fst

/-- `this.userAssignments.has(e)` / `.get(e)` over the assignment map,
modelled as an insertion-ordered association list (a `Map` may hold a
`null` value, hence `Option String` values). -/
def findAssign : List (String × Option String) → String → Option (Option String)
  | [], _ => none
  | (k, v) :: rest, eid => if k = eid then some v else findAssign rest eid

/-- `assignUserToExperiments` (image-optimization.js:1207-1216): for every
configured experiment that has no assignment yet (`prior` is the map loaded
from `localStorage`), compute and record one; existing assignments are
kept untouched. -/
def assignUserToExperiments (experiments : List (String × List (String × ℚ)))
    (userId : List ℕ) (prior : List (String × Option String)) :
    List (String × Option String) :=
  experiments.foldl
    (fun m p =>
      if (findAssign m p.1).isSome then m
      else m ++ [(p.1, assignToVariant experiments userId p.1)])
    prior

/-! ### Theorems -/

lemma clamp_mem (x : ℤ) : 30 ≤ max 30 (min 95 x) ∧ max 30 (min 95 x) ≤ 95 := by
  omega

/-- Claim C3: for every requested quality input (including the absent one),
every variant assignment, and every connection profile,
`calculateOptimalQuality` returns an integer (its codomain is `ℤ`) within
[30, 95] inclusive. -/
theorem calculateOptimalQuality_in_range :
    ∀ (requestedQuality : Option ℚ) (variantAssign : Option String) (conn : Connection),
      30 ≤ calculateOptimalQuality requestedQuality variantAssign conn ∧
        calculateOptimalQuality requestedQuality variantAssign conn ≤ 95 := by
  intro requestedQuality variantAssign conn
  unfold calculateOptimalQuality
  exact clamp_mem _

set_option maxHeartbeats 0 in
lemma calculateOptimalQuality_eq_spec :
    ∀ (requestedQuality : Option ℚ) (variantAssign : Option String) (conn : Connection),
      calculateOptimalQuality requestedQuality variantAssign conn =
        selectQualitySpec (normalizedQuality requestedQuality) variantAssign conn := by
  intro requestedQuality variantAssign conn
  obtain ⟨et, dl, hrtt, sd⟩ := conn
  simp only [calculateOptimalQuality, selectQualitySpec, normalizedQuality]
  rcases variantAssign with _ | s
  · rcases requestedQuality with _ | q
    · cases sd <;> cases et <;> simp [mul_one]
    · by_cases hq : q = 0 <;> cases sd <;> cases et <;> simp [hq, mul_one]
  · by_cases hs : s = ""
    · subst hs
      rcases requestedQuality with _ | q
      · cases sd <;> cases et <;> simp [mul_one]
      · by_cases hq : q = 0 <;> cases sd <;> cases et <;> simp [hq, mul_one]
    · by_cases h1 : s = "aggressive"
      · subst h1
        rcases requestedQuality with _ | q
        · cases sd <;> cases et <;> simp [mul_one]
        · by_cases hq : q = 0 <;> cases sd <;> cases et <;> simp [hq, mul_one]
      · by_cases h2 : s = "quality-focused"
        · subst h2
          rcases requestedQuality with _ | q
          · cases sd <;> cases et <;> simp [mul_one]
          · by_cases hq : q = 0 <;> cases sd <;> cases et <;> simp [hq, mul_one]
        · rcases requestedQuality with _ | q
          · cases sd <;> cases et <;> simp [hs, h1, h2, mul_one]
          · by_cases hq : q = 0 <;> cases sd <;> cases et <;>
              simp [hs, h1, h2, hq, mul_one]

/-- Claim C6: `calculateOptimalQuality` implements the spec's pipeline —
start from the requested quality (default 80 when absent, the JS-falsy
requested quality 0 counting as absent), apply the variant multiplier
(aggressive=0.8, quality-focused=1.1, balanced=1.0), then the network
multiplier (slow-2g=0.7, 2g=0.8, 3g=0.9, else 1.0, saveData overriding to
0.6), round, clamp; in particular requestedQuality=80, variant
"aggressive", network "3g", saveData=false yields 58. -/
theorem calculateOptimalQuality_matches_spec :
    (∀ (requestedQuality : Option ℚ) (variantAssign : Option String) (conn : Connection),
      calculateOptimalQuality requestedQuality variantAssign conn =
        selectQualitySpec (normalizedQuality requestedQuality) variantAssign conn) ∧
    calculateOptimalQuality (some 80) (some "aggressive")
      { effectiveType := EffType.threeG, downlink := 10, rtt := 100, saveData := false } = 58 := by
  constructor
  · exact calculateOptimalQuality_eq_spec
  · simp only [calculateOptimalQuality]
    simp
    norm_num [jsRound]

/-- Claim C9: a cached response lacking the `sw-cached-at` header is never
considered expired — `isExpired` returns `false` on it, and the cache
lookup of `handleImageRequest` serves it as fresh at any age; only
`cacheResponse` stamps this header (at store time), so only responses it
stored are subject to age expiry. -/
theorem isExpired_requires_timestamp :
    (∀ (now : ℕ) (isImage : Bool), isExpired none now isImage = false) ∧
    (∀ (ok : Bool) (cachedAt contentLength : Option ℕ) (now : ℕ),
      cacheResponse ⟨ok, cachedAt, contentLength⟩ now =
        if ok then some ⟨ok, some now, contentLength⟩ else none) ∧
    (∀ (ok : Bool) (contentLength : Option ℕ) (now : ℕ) (isImage : Bool),
      servesCachedResponse (some ⟨ok, none, contentLength⟩) now isImage = true) := by
  refine ⟨fun now isImage => rfl, fun ok c cl now => ?_, fun ok cl now isImage => rfl⟩
  cases ok <;> rfl

/-- Claim C8 (counterexample): the service worker's fallback when no client
responds to the format-support query is not the most conservative
(jpg-only) assumption — it reports webp as supported. -/
theorem getFormatSupport_fallback_not_jpg_only :
    (getFormatSupport none).webp = true ∧
    getFormatSupport none ≠ detectFormatSupport false false := by
  exact ⟨rfl, by decide⟩

/-- Claim C8 (amended): detection falls back to defaults instead of
failing — a missing connection API yields effectiveType `4g` (downlink 10,
rtt 100, saveData false); format probing always reports jpg supported, and
failed probes yield the jpg-only assumption; the service worker's fallback
when no client responds is `{avif: false, webp: true, jpg: true}` (webp
assumed supported, not jpg-only). -/
theorem capability_fallback_defaults :
    detectConnection none =
      { effectiveType := EffType.fourG, downlink := 10, rtt := 100, saveData := false } ∧
    (∀ avifProbe webpProbe : Bool,
      (detectFormatSupport avifProbe webpProbe).jpg = true) ∧
    detectFormatSupport false false = { avif := false, webp := false, jpg := true } ∧
    getFormatSupport none = { avif := false, webp := true, jpg := true } :=
  ⟨rfl, fun _ _ => rfl, rfl, rfl⟩

/-- Claim C1 (counterexample): with saveData=true but variant "avif-first"
and avif supported, `selectOptimalFormat` returns avif, not jpg — the
saveData guard lives only inside the smart-detection branch of the
switch. -/
theorem selectOptimalFormat_saveData_avif_first :
    selectOptimalFormat ⟨true, true, true⟩ (some "avif-first")
      { effectiveType := EffType.fourG, downlink := 10, rtt := 100, saveData := true } =
      Format.avif ∧ Format.avif ≠ Format.jpg := by
  exact ⟨by decide, by decide⟩

/-- Claim C1 (amended): when the format-preference variant is
"smart-detection" or unassigned, saveData=true makes `selectOptimalFormat`
return jpg for every support set and connection; the "avif-first" and
"webp-first" variants do not consult saveData at all. -/
theorem selectOptimalFormat_saveData_smart_jpg (fs : FormatSupport)
    (conn : Connection) (variantAssign : Option String)
    (hsd : conn.saveData = true)
    (hv : variantAssign = none ∨ variantAssign = some "smart-detection") :
    selectOptimalFormat fs variantAssign conn = Format.jpg := by
  rcases hv with rfl | rfl <;> simp [selectOptimalFormat, hsd]

/-- Witness for `selectOptimalFormat_saveData_smart_jpg` at a concrete
profile. -/
theorem selectOptimalFormat_saveData_smart_jpg_witness :
    selectOptimalFormat ⟨true, true, true⟩ (some "smart-detection")
      { effectiveType := EffType.fourG, downlink := 10, rtt := 100, saveData := true } =
      Format.jpg :=
  selectOptimalFormat_saveData_smart_jpg ⟨true, true, true⟩
    { effectiveType := EffType.fourG, downlink := 10, rtt := 100, saveData := true }
    (some "smart-detection") rfl (Or.inr rfl)

/-- Claim C7: under "smart-detection" (or with no assigned variant) and
saveData=false, the selected format is avif exactly when avif is supported
and the network class is not slow-2g; otherwise webp when supported, else
jpg; in particular, with both formats supported, avif on 4g and webp on
slow-2g. -/
theorem selectOptimalFormat_smart_detection (fs : FormatSupport)
    (conn : Connection) (variantAssign : Option String)
    (hv : variantAssign = none ∨ variantAssign = some "smart-detection")
    (hsd : conn.saveData = false) :
    (selectOptimalFormat fs variantAssign conn = Format.avif ↔
      fs.avif = true ∧ conn.effectiveType ≠ EffType.slow2g) ∧
    (¬(fs.avif = true ∧ conn.effectiveType ≠ EffType.slow2g) →
      selectOptimalFormat fs variantAssign conn =
        if fs.webp then Format.webp else Format.jpg) ∧
    selectOptimalFormat ⟨true, true, true⟩ variantAssign
      { effectiveType := EffType.fourG, downlink := 10, rtt := 100, saveData := false } =
      Format.avif ∧
    selectOptimalFormat ⟨true, true, true⟩ variantAssign
      { effectiveType := EffType.slow2g, downlink := 10, rtt := 100, saveData := false } =
      Format.webp := by
  rcases hv with rfl | rfl <;>
    refine ⟨?_, ?_, by decide, by decide⟩ <;>
    by_cases h : fs.avif = true ∧ conn.effectiveType ≠ EffType.slow2g <;>
    simp [selectOptimalFormat, hsd, h] <;>
    cases hw : fs.webp <;> simp [hw]

/-- Witness for `selectOptimalFormat_smart_detection`, covering both
scenario rows of the spec. -/
theorem selectOptimalFormat_smart_detection_witness :
    selectOptimalFormat ⟨true, true, true⟩ (some "smart-detection")
      { effectiveType := EffType.fourG, downlink := 10, rtt := 100, saveData := false } =
      Format.avif ∧
    selectOptimalFormat ⟨true, true, true⟩ (some "smart-detection")
      { effectiveType := EffType.slow2g, downlink := 10, rtt := 100, saveData := false } =
      Format.webp :=
  ⟨(selectOptimalFormat_smart_detection ⟨true, true, true⟩
      { effectiveType := EffType.fourG, downlink := 10, rtt := 100, saveData := false }
      (some "smart-detection") (Or.inr rfl) rfl).2.2.1,
   (selectOptimalFormat_smart_detection ⟨true, true, true⟩
      { effectiveType := EffType.slow2g, downlink := 10, rtt := 100, saveData := false }
      (some "smart-detection") (Or.inr rfl) rfl).2.2.2⟩

lemma perm_insertByCachedAt (e : CacheEntry) (l : List CacheEntry) :
    (insertByCachedAt e l).Perm (e :: l) := by
  induction l with
  | nil => rfl
  | cons x xs ih =>
    unfold insertByCachedAt
    split_ifs
    · rfl
    · exact (ih.cons x).trans (List.Perm.swap e x xs)

lemma perm_sortByCachedAt (l : List CacheEntry) : (sortByCachedAt l).Perm l := by
  induction l with
  | nil => rfl
  | cons x xs ih =>
    exact (perm_insertByCachedAt x (sortByCachedAt xs)).trans (ih.cons x)

lemma pairwise_insertByCachedAt (e : CacheEntry) (l : List CacheEntry)
    (h : l.Pairwise (fun a b => a.cachedAt ≤ b.cachedAt)) :
    (insertByCachedAt e l).Pairwise (fun a b => a.cachedAt ≤ b.cachedAt) := by
  induction l with
  | nil => simp [insertByCachedAt]
  | cons x xs ih =>
    rw [List.pairwise_cons] at h
    unfold insertByCachedAt
    split_ifs with hc
    · rw [List.pairwise_cons]
      refine ⟨?_, List.pairwise_cons.mpr h⟩
      intro b hb
      rcases List.mem_cons.mp hb with rfl | hb
      · exact hc
      · exact le_trans hc (h.1 b hb)
    · rw [List.pairwise_cons]
      refine ⟨?_, ih h.2⟩
      intro b hb
      rcases List.mem_cons.mp ((perm_insertByCachedAt e xs).mem_iff.mp hb) with rfl | hb
      · omega
      · exact h.1 b hb

lemma pairwise_sortByCachedAt (l : List CacheEntry) :
    (sortByCachedAt l).Pairwise (fun a b => a.cachedAt ≤ b.cachedAt) := by
  induction l with
  | nil => simp [sortByCachedAt]
  | cons x xs ih => exact pairwise_insertByCachedAt x _ ih

lemma sumSize_evictOldest_le (l : List CacheEntry) (maxSize : ℕ) :
    sumSize (evictOldest l maxSize) ≤ maxSize := by
  induction l with
  | nil => simp [evictOldest, sumSize]
  | cons e rest ih =>
    unfold evictOldest
    split_ifs with hc
    · exact ih
    · omega

lemma evictOldest_suffix (l : List CacheEntry) (maxSize : ℕ) :
    ∃ removed, l = removed ++ evictOldest l maxSize := by
  induction l with
  | nil => exact ⟨[], rfl⟩
  | cons e rest ih =>
    unfold evictOldest
    split_ifs with hc
    · obtain ⟨rem, hrem⟩ := ih
      exact ⟨e :: rem, by rw [List.cons_append, ← hrem]⟩
    · exact ⟨[], rfl⟩

/-- Claim C4: an eviction pass leaves the partition total within its
budget; the pass only reorders the entries (ascending `cachedAt`) and then
drops a prefix of that order, so every removed entry has a `cachedAt` no
greater than that of every retained entry. -/
theorem manageCacheSize_within_budget_oldest_first
    (entries : List CacheEntry) (maxSize : ℕ) :
    sumSize (manageCacheSize entries maxSize) ≤ maxSize ∧
    (sortByCachedAt entries).Perm entries ∧
    ∃ removed,
      sortByCachedAt entries = removed ++ manageCacheSize entries maxSize ∧
      ∀ r ∈ removed, ∀ k ∈ manageCacheSize entries maxSize,
        r.cachedAt ≤ k.cachedAt := by
  unfold manageCacheSize
  refine ⟨sumSize_evictOldest_le _ _, perm_sortByCachedAt _, ?_⟩
  obtain ⟨rem, hrem⟩ := evictOldest_suffix (sortByCachedAt entries) maxSize
  refine ⟨rem, hrem, ?_⟩
  have hp := pairwise_sortByCachedAt entries
  rw [hrem, List.pairwise_append] at hp
  exact fun r hr k hk => hp.2.2 r hr k hk

lemma floor_half : ⌊(1 : ℚ) / 2⌋ = 0 := by
  rw [Int.floor_eq_zero_iff]
  constructor <;> norm_num

lemma jsRound_intCast (n : ℤ) : jsRound (n : ℚ) = n := by
  unfold jsRound
  rw [add_comm, Int.floor_add_int, floor_half, zero_add]

/-- Claim C5 (amended): for every base width `w ≥ 2` (and any height),
`generateSrcSet` returns exactly 4 entries whose widths are
`round(w*0.5), w, round(w*1.5), 2*w` in strictly ascending order; at `w = 1`
the four widths are `1, 1, 2, 2`, which is only nondecreasing. -/
theorem generateSrcSet_four_ascending (src : String) (f : Format) (quality : ℤ)
    (w h : ℤ) (hw : 2 ≤ w) :
    (generateSrcSet src w h f quality).length = 4 ∧
    (generateSrcSet src w h f quality).map Prod.snd =
      [jsRound ((w : ℚ) * 0.5), w, jsRound ((w : ℚ) * 1.5), 2 * w] ∧
    List.Chain' (· < ·) ((generateSrcSet src w h f quality).map Prod.snd) := by
  have h1 : jsRound ((w : ℚ) * 1) = w := by
    rw [mul_one, jsRound_intCast]
  have h2 : jsRound ((w : ℚ) * 2) = 2 * w := by
    have : ((w : ℚ) * 2) = ((2 * w : ℤ) : ℚ) := by push_cast; ring
    rw [this, jsRound_intCast]
  have hmap : (generateSrcSet src w h f quality).map Prod.snd =
      [jsRound ((w : ℚ) * 0.5), w, jsRound ((w : ℚ) * 1.5), 2 * w] := by
    simp [generateSrcSet, h1, h2, jsRound_intCast]
  have hwq : (2 : ℚ) ≤ (w : ℚ) := by exact_mod_cast hw
  have ha : jsRound ((w : ℚ) * 0.5) < w := by
    unfold jsRound
    rw [Int.floor_lt]
    norm_num
    linarith
  have hb : w < jsRound ((w : ℚ) * 1.5) := by
    unfold jsRound
    rw [Int.lt_iff_add_one_le, Int.le_floor]
    push_cast
    norm_num
    linarith
  have hcl : jsRound ((w : ℚ) * 1.5) < 2 * w := by
    unfold jsRound
    rw [Int.floor_lt]
    push_cast
    norm_num
    linarith
  refine ⟨by simp [generateSrcSet], hmap, ?_⟩
  rw [hmap]
  simp [List.chain'_cons, ha, hb, hcl]

/-- Witness for `generateSrcSet_four_ascending` at width 2. -/
theorem generateSrcSet_four_ascending_witness :
    (generateSrcSet "img.jpg" 2 2 Format.jpg 80).length = 4 ∧
    (generateSrcSet "img.jpg" 2 2 Format.jpg 80).map Prod.snd =
      [jsRound ((2 : ℚ) * 0.5), 2, jsRound ((2 : ℚ) * 1.5), 2 * 2] ∧
    List.Chain' (· < ·) ((generateSrcSet "img.jpg" 2 2 Format.jpg 80).map Prod.snd) := by
  have := generateSrcSet_four_ascending "img.jpg" Format.jpg 80 2 2 (by norm_num)
  exact_mod_cast this

/-- Claim C5 (counterexample): at base width 1 the four srcset widths are
`1, 1, 2, 2` — not strictly ascending. -/
theorem generateSrcSet_width_one_not_strict :
    ¬ List.Chain' (· < ·) ((generateSrcSet "img.jpg" 1 1 Format.jpg 80).map Prod.snd) := by
  have hmap : (generateSrcSet "img.jpg" 1 1 Format.jpg 80).map Prod.snd =
      [1, 1, 2, 2] := by
    simp [generateSrcSet, generateOptimizedUrl]
    norm_num [jsRound, floor_half]
  rw [hmap]
  simp [List.chain'_cons]

/-- The fold of `assignUserToExperiments` with the per-experiment
assignment abstracted, for reasoning by induction on the iterated list. -/
def foldlAssign (g : String → Option String)
    (exps : List (String × List (String × ℚ)))
    (m : List (String × Option String)) : List (String × Option String) :=
  exps.foldl
    (fun m p =>
      if (findAssign m p.1).isSome then m else m ++ [(p.1, g p.1)])
    m

lemma assignUserToExperiments_eq_foldl
    (exps : List (String × List (String × ℚ))) (userId : List ℕ)
    (prior : List (String × Option String)) :
    assignUserToExperiments exps userId prior =
      foldlAssign (assignToVariant exps userId) exps prior := rfl

lemma findAssign_cons (k : String) (w : Option String)
    (rest : List (String × Option String)) (e : String) :
    findAssign ((k, w) :: rest) e = if k = e then some w else findAssign rest e :=
  rfl

lemma findAssign_append_some (m s : List (String × Option String)) (e : String)
    (v : Option String) (h : findAssign m e = some v) :
    findAssign (m ++ s) e = some v := by
  induction m with
  | nil => simp [findAssign] at h
  | cons x xs ih =>
    obtain ⟨k, w⟩ := x
    rw [findAssign_cons] at h
    rw [List.cons_append, findAssign_cons]
    by_cases hk : k = e
    · rw [if_pos hk] at h
      rw [if_pos hk]
      exact h
    · rw [if_neg hk] at h
      rw [if_neg hk]
      exact ih h

lemma findAssign_append_none (m s : List (String × Option String)) (e : String)
    (h : findAssign m e = none) :
    findAssign (m ++ s) e = findAssign s e := by
  induction m with
  | nil => rfl
  | cons x xs ih =>
    obtain ⟨k, w⟩ := x
    rw [findAssign_cons] at h
    rw [List.cons_append, findAssign_cons]
    by_cases hk : k = e
    · rw [if_pos hk] at h
      exact absurd h (by simp)
    · rw [if_neg hk] at h
      rw [if_neg hk]
      exact ih h

lemma foldlAssign_append (g : String → Option String)
    (exps : List (String × List (String × ℚ))) :
    ∀ m, ∃ s, foldlAssign g exps m = m ++ s := by
  induction exps with
  | nil => exact fun m => ⟨[], (List.append_nil m).symm⟩
  | cons p rest ih =>
    intro m
    show ∃ s, foldlAssign g rest
      (if (findAssign m p.1).isSome then m else m ++ [(p.1, g p.1)]) = m ++ s
    split_ifs with hc
    · exact ih m
    · obtain ⟨s, hs⟩ := ih (m ++ [(p.1, g p.1)])
      exact ⟨[(p.1, g p.1)] ++ s, by rw [hs, List.append_assoc]⟩

lemma foldlAssign_preserves (g : String → Option String)
    (exps : List (String × List (String × ℚ)))
    (m : List (String × Option String)) (e : String) (v : Option String)
    (h : findAssign m e = some v) :
    findAssign (foldlAssign g exps m) e = some v := by
  obtain ⟨s, hs⟩ := foldlAssign_append g exps m
  rw [hs]
  exact findAssign_append_some _ _ _ _ h

lemma foldlAssign_isSome (g : String → Option String)
    (exps : List (String × List (String × ℚ)))
    (m : List (String × Option String)) (e : String)
    (h : (findAssign m e).isSome) :
    (findAssign (foldlAssign g exps m) e).isSome := by
  obtain ⟨v, hv⟩ := Option.isSome_iff_exists.mp h
  rw [foldlAssign_preserves g exps m e v hv]
  rfl

lemma foldlAssign_complete (g : String → Option String) :
    ∀ (exps : List (String × List (String × ℚ))) m p, p ∈ exps →
      (findAssign (foldlAssign g exps m) p.1).isSome := by
  intro exps
  induction exps with
  | nil => simp
  | cons q rest ih =>
    intro m p hp
    show (findAssign (foldlAssign g rest
      (if (findAssign m q.1).isSome then m else m ++ [(q.1, g q.1)])) p.1).isSome
    rcases List.mem_cons.mp hp with rfl | hp
    · split_ifs with hc
      · exact foldlAssign_isSome _ _ _ _ hc
      · apply foldlAssign_isSome
        rw [findAssign_append_none _ _ _
          (Option.not_isSome_iff_eq_none.mp (by simpa using hc))]
        simp [findAssign]
    · exact ih _ p hp

lemma foldlAssign_stable (g : String → Option String)
    (exps : List (String × List (String × ℚ)))
    (m : List (String × Option String))
    (h : ∀ p ∈ exps, (findAssign m p.1).isSome) :
    foldlAssign g exps m = m := by
  induction exps with
  | nil => rfl
  | cons q rest ih =>
    show foldlAssign g rest
      (if (findAssign m q.1).isSome then m else m ++ [(q.1, g q.1)]) = m
    rw [if_pos (h q (List.mem_cons_self q rest))]
    exact ih fun p hp => h p (List.mem_cons_of_mem q hp)

/-- Claim C2 (counterexample): two runs of `getABTestVariant` with the same
configuration and weights but different `Math.random()` draws assign
different variants, so the page-level assignment is not a deterministic
function of the user identifier (which it never consults) and differs
between sessions. -/
theorem getABTestVariant_not_deterministic :
    getABTestVariant true abTestingExperiments (fun _ => 1 / 10) ≠
      getABTestVariant true abTestingExperiments (fun _ => 9 / 10) := by
  norm_num [getABTestVariant, abTestingExperiments, pickVariantLoop,
    List.filterMap_cons, List.filterMap_nil]
  decide

/-- Claim C2 (amended): the `ImageOptimizationABTesting` assignment is a
deterministic function of the stable per-user identifier (hash-based
bucketing) and is persisted — assignments loaded from storage are returned
verbatim, and re-running `assignUserToExperiments` over the map persisted
by a previous run with the same user identifier, experiment configuration
and weights changes nothing.  The `ImageOptimizationSystem.getABTestVariant`
path, by contrast, draws fresh `Math.random()` values per run. -/
theorem assignUserToExperiments_deterministic_persistent
    (experiments : List (String × List (String × ℚ))) (userId : List ℕ) :
    (∀ (prior : List (String × Option String)) (e : String) (v : Option String),
      findAssign prior e = some v →
      findAssign (assignUserToExperiments experiments userId prior) e = some v) ∧
    assignUserToExperiments experiments userId
        (assignUserToExperiments experiments userId []) =
      assignUserToExperiments experiments userId [] := by
  constructor
  · intro prior e v h
    rw [assignUserToExperiments_eq_foldl]
    exact foldlAssign_preserves _ _ _ _ _ h
  · rw [assignUserToExperiments_eq_foldl, assignUserToExperiments_eq_foldl]
    exact foldlAssign_stable _ _ _
      (fun p hp => foldlAssign_complete _ _ _ p hp)

/-- Witness for `assignUserToExperiments_deterministic_persistent`: a
stored assignment survives a re-run over the default experiment table. -/
theorem assignUserToExperiments_deterministic_persistent_witness :
    findAssign (assignUserToExperiments abExperiments [117]
        [("format-preference", some "webp-first")]) "format-preference" =
      some (some "webp-first") :=
  (assignUserToExperiments_deterministic_persistent abExperiments [117]).1
    [("format-preference", some "webp-first")] "format-preference"
    (some "webp-first") (by simp [findAssign])

lemma pickVariantLoop_mem (vs : List (String × ℚ)) :
    ∀ (r c : ℚ) (v : String),
      pickVariantLoop r c vs = some v → v ∈ vs.map Prod.fst := by
  induction vs with
  | nil =>
    intro r c v h
    simp [pickVariantLoop] at h
  | cons p rest ih =>
    intro r c v h
    obtain ⟨vid, wt⟩ := p
    unfold pickVariantLoop at h
    split_ifs at h
    · simp only [Option.some_inj] at h
      subst h
      exact List.mem_cons_self _ _
    · exact List.mem_cons_of_mem _ (ih _ _ _ h)

lemma abExperiments_variants_nonempty (eid : String) (vs : List (String × ℚ))
    (h : lookupExperiment abExperiments eid = some vs) : vs ≠ [] := by
  simp only [abExperiments, lookupExperiment] at h
  split_ifs at h <;> (injection h with h2; subst h2; simp)

/-- Claim C10: for every experiment id present in the configured experiment
table, `assignToVariant` returns a variant id belonging to that experiment;
its bucket value lies in `[0, 1)`, and when the bucket exceeds every
cumulative weight the experiment's first variant is the fallback; `null`
is returned exactly for an experiment id not present in the table. -/
theorem assignToVariant_returns_config_variant
    (userId : List ℕ) (experimentId : String) :
    (assignToVariant abExperiments userId experimentId = none ↔
      lookupExperiment abExperiments experimentId = none) ∧
    (∀ v, assignToVariant abExperiments userId experimentId = some v →
      ∃ vs, lookupExperiment abExperiments experimentId = some vs ∧
        v ∈ vs.map Prod.fst) ∧
    (0 ≤ bucketValue userId experimentId ∧
      bucketValue userId experimentId < 1) ∧
    (∀ vs, lookupExperiment abExperiments experimentId = some vs →
      pickVariantLoop (bucketValue userId experimentId) 0 vs = none →
      assignToVariant abExperiments userId experimentId =
        vs.head?.map Prod.fst) := by
  refine ⟨?_, ?_, ⟨?_, ?_⟩, ?_⟩
  · cases h : lookupExperiment abExperiments experimentId with
    | none => simp [assignToVariant, h]
    | some vs =>
      have hne := abExperiments_variants_nonempty _ _ h
      simp only [assignToVariant, h]
      cases hl : pickVariantLoop (bucketValue userId experimentId) 0 vs with
      | none =>
        obtain ⟨a, t, rfl⟩ := List.exists_cons_of_ne_nil hne
        simp
      | some v => simp
  · intro v hv
    cases h : lookupExperiment abExperiments experimentId with
    | none => simp [assignToVariant, h] at hv
    | some vs =>
      refine ⟨vs, rfl, ?_⟩
      simp only [assignToVariant, h] at hv
      cases hl : pickVariantLoop (bucketValue userId experimentId) 0 vs with
      | none =>
        rw [hl] at hv
        obtain ⟨a, t, rfl⟩ := List.exists_cons_of_ne_nil
          (abExperiments_variants_nonempty _ _ h)
        simp at hv
        subst hv
        exact List.mem_map_of_mem _ (List.mem_cons_self a t)
      | some u =>
        rw [hl] at hv
        simp at hv
        subst hv
        exact pickVariantLoop_mem _ _ _ _ hl
  · unfold bucketValue
    positivity
  · unfold bucketValue
    rw [div_lt_one (by norm_num)]
    have hlt : hashString (userId ++ strChars experimentId) % 10000 < 10000 :=
      Nat.mod_lt _ (by norm_num)
    exact_mod_cast Nat.lt_of_lt_of_le hlt (by norm_num)
  · intro vs h hl
    simp [assignToVariant, h, hl]

set_option maxRecDepth 8000 in
/-- Witness for `assignToVariant_returns_config_variant`: the empty user id
is bucketed into the "avif-first" variant of "format-preference". -/
theorem assignToVariant_returns_config_variant_witness :
    ∃ vs, lookupExperiment abExperiments "format-preference" = some vs ∧
      "avif-first" ∈ vs.map Prod.fst :=
  (assignToVariant_returns_config_variant [] "format-preference").2.1
    "avif-first"
    (by
      have h : hashString ([] ++ strChars "format-preference") % 10000 = 2575 := rfl
      simp only [assignToVariant, lookupExperiment, abExperiments, bucketValue, h]
      norm_num [pickVariantLoop])

end Evilpo
